import Mathlib

/-!
Verification development for the `evaluator.js` repository: a sandboxed
JavaScript expression evaluator (`src/Evaluator.js`), a regex-driven template
renderer (`src/index.js`) and a state-machine template tokenizer
(`src/TemplateParser.js`).

The embedding models JavaScript numbers as extended rationals (NaN, signed
infinities, a distinguished negative zero, and exact finite rationals);
IEEE-754 rounding is not modelled, which is irrelevant to the claims settled
here (they only involve exactly representable values).  Host built-ins are
modelled by the subset the claims exercise (Array, Object, Map, Function and
their methods), each identified by a tag so that the source's
reference-equality checks become tag equality.

`src/Evaluator.js` contains two snapshots of the `Evaluator` class separated
by a document marker.  They agree on all claim-relevant code except two spots:
the `"/"` binary case (first snapshot lines 255-262 special-cases a zero
divisor as `1 / right`; the second snapshot's `BINARY_OPERATION_MAP` line 583
uses plain `a / b`) and the call-path `Function` guard (second snapshot line
1021 only).  The boolean parameter `snap2` of the evaluator selects the second
snapshot's behaviour at exactly those two spots.
-/

namespace EvalJs

/-- Model of a JavaScript number: NaN, the two infinities, negative zero, and
finite values as exact rationals (`fin 0` is positive zero). -/
inductive JSNum where
  | nan
  | posInf
  | negInf
  | negZero
  | fin (q : ℚ)
  deriving DecidableEq, Repr

namespace JSNum

/-- JavaScript unary negation on numbers. -/
def neg : JSNum → JSNum
  | nan => nan
  | posInf => negInf
  | negInf => posInf
  | negZero => fin 0
  | fin q => if q = 0 then negZero else fin (-q)

/-- JavaScript numeric addition (exact; no rounding). -/
def add : JSNum → JSNum → JSNum
  | nan, _ => nan
  | _, nan => nan
  | posInf, negInf => nan
  | negInf, posInf => nan
  | posInf, _ => posInf
  | _, posInf => posInf
  | negInf, _ => negInf
  | _, negInf => negInf
  | negZero, negZero => negZero
  | negZero, fin q => fin q
  | fin q, negZero => fin q
  | fin a, fin b => fin (a + b)

/-- JavaScript numeric subtraction. -/
def sub (a b : JSNum) : JSNum := add a (neg b)

/-- JavaScript numeric multiplication (exact; no rounding). -/
def mul : JSNum → JSNum → JSNum
  | nan, _ => nan
  | _, nan => nan
  | posInf, posInf => posInf
  | posInf, negInf => negInf
  | negInf, posInf => negInf
  | negInf, negInf => posInf
  | posInf, negZero => nan
  | negZero, posInf => nan
  | negInf, negZero => nan
  | negZero, negInf => nan
  | posInf, fin q => if q = 0 then nan else if 0 < q then posInf else negInf
  | fin q, posInf => if q = 0 then nan else if 0 < q then posInf else negInf
  | negInf, fin q => if q = 0 then nan else if 0 < q then negInf else posInf
  | fin q, negInf => if q = 0 then nan else if 0 < q then negInf else posInf
  | negZero, negZero => fin 0
  | negZero, fin q => if 0 ≤ q then negZero else fin 0
  | fin q, negZero => if 0 ≤ q then negZero else fin 0
  | fin a, fin b => if a * b = 0 ∧ (a < 0 ∨ b < 0) then negZero else fin (a * b)

/-- JavaScript numeric division following IEEE-754 sign and zero/infinity
rules (finite nonzero quotients are exact rationals; no rounding). -/
def div : JSNum → JSNum → JSNum
  | nan, _ => nan
  | _, nan => nan
  | posInf, posInf => nan
  | posInf, negInf => nan
  | negInf, posInf => nan
  | negInf, negInf => nan
  | posInf, negZero => negInf
  | negInf, negZero => posInf
  | posInf, fin q => if 0 ≤ q then posInf else negInf
  | negInf, fin q => if 0 ≤ q then negInf else posInf
  | negZero, posInf => negZero
  | negZero, negInf => fin 0
  | fin q, posInf => if 0 ≤ q then fin 0 else negZero
  | fin q, negInf => if 0 ≤ q then negZero else fin 0
  | negZero, negZero => nan
  | negZero, fin q => if q = 0 then nan else if 0 < q then negZero else fin 0
  | fin a, negZero => if a = 0 then nan else if 0 < a then negInf else posInf
  | fin a, fin b =>
      if b = 0 then (if a = 0 then nan else if 0 < a then posInf else negInf)
      else if a = 0 ∧ b < 0 then negZero
      else fin (a / b)

end JSNum

/-- A parsed literal value as produced by the external parser (acorn):
numbers, strings, booleans and `null`. -/
inductive LitV where
  | numL (q : ℚ)
  | strL (s : String)
  | boolL (b : Bool)
  | nullL
  deriving Repr

/-- The binary operators modelled (the source handles more; the claims only
exercise these). -/
inductive BinOp where
  | addB | subB | mulB | divB
  deriving DecidableEq, Repr

/-- Logical operators of `handleLogicalExpression`: `&&`, `||`, `??`. -/
inductive LogOp where
  | andL | orL | nullishL
  deriving DecidableEq, Repr

/-- Unary operators of `handleUnaryExpression`. -/
inductive UnOp where
  | negU | plusU | bangU | tyofU | voidU | delU
  deriving DecidableEq, Repr

/-- AST nodes, mirroring the acorn node shapes consumed by `Evaluator.visit`.
`memberS` is a non-computed member access (`a.b`, property an identifier);
`memberC` is a computed one (`a[expr]`).  `chain` is acorn's
`ChainExpression` wrapper around an optional chain. -/
inductive Node where
  | lit (v : LitV)
  | ident (name : String)
  | binary (op : BinOp) (l r : Node)
  | logical (op : LogOp) (l r : Node)
  | unary (op : UnOp) (arg : Node)
  | memberS (obj : Node) (name : String) (optional : Bool)
  | memberC (obj : Node) (propE : Node) (optional : Bool)
  | call (callee : Node) (args : List Node) (optional : Bool)
  | newE (callee : Node) (args : List Node)
  | cond (t c a : Node)
  | arrayLit (elems : List Node)
  | objLit (props : List (String × Node))
  | arrow (params : List String) (body : Node)
  | chain (e : Node)
  deriving Repr

/-- Tags identifying the host built-in function objects the model knows
about.  Reference equality of host functions becomes equality of tags. -/
inductive BFun where
  | arrayPush | arrayPop | arrayShift | arrayUnshift | arraySplice
  | arrayReverse | arraySort | arrayFill | arrayCopyWithin
  | arraySlice | arrayConcat
  | objectAssign | objectFreeze | objectDefineProperty | objectDefineProperties
  | objectPreventExtensions | objectSetPrototypeOf | objectSeal | objectKeys
  | mapSet | mapDelete | mapClear
  | arrayCtorB | objectCtor | mapCtor | functionCtor
  deriving DecidableEq, BEq, Repr

/-- Runtime values.  `mapV` models a `Map` instance (entry storage is not
needed by any claim, so none is carried).  `hostFn` models a host function
the sandbox would create but whose behaviour no claim observes (the function
returned by the first snapshot's unguarded `Function(...)` call path). -/
inductive Value where
  | undefV
  | vnull
  | bool (b : Bool)
  | num (n : JSNum)
  | str (s : String)
  | arr (elems : List Value)
  | obj (props : List (String × Value))
  | mapV
  | closure (params : List String) (body : Node)
  | builtin (f : BFun)
  | hostFn
  deriving Repr

/-- JavaScript number-to-string conversion.  Exact for the values any claim
stringifies (NaN, infinities, zeros and integers); non-integral rationals use
Lean's rational notation, which no claim evaluates. -/
def numToString : JSNum → String
  | .nan => "NaN"
  | .posInf => "Infinity"
  | .negInf => "-Infinity"
  | .negZero => "0"
  | .fin q => if q.den = 1 then toString q.num else toString q

/-- The whitespace characters trimmed by `String.prototype.trim` (the
subset that can occur in the claims' inputs). -/
def isJsWs (c : Char) : Bool :=
  c == ' ' || c == '\t' || c == '\n' || c == '\r' || c == '\x0b' || c == '\x0c'

/-- `String.prototype.trim` on a character list. -/
def trimL (l : List Char) : List Char :=
  ((l.dropWhile isJsWs).reverse.dropWhile isJsWs).reverse

/-- The numeric value of a decimal digit character. -/
def charDigit? (c : Char) : Option Nat :=
  let n := c.toNat
  if 48 ≤ n ∧ n ≤ 57 then some (n - 48) else none

/-- Parse a non-empty all-digit character list as a natural number. -/
def natOfDigits (cs : List Char) : Option Nat :=
  if cs.isEmpty then none
  else
    cs.foldl
      (fun acc c =>
        match acc, charDigit? c with
        | some a, some d => some (a * 10 + d)
        | _, _ => none)
      (some 0)

/-- `Number(string)`: trimmed empty string is `0`; optionally signed decimal
integers convert exactly (`"-0"` gives negative zero); other strings are
modelled as NaN (fractional/exponent/hex strings are not needed by any
claim). -/
def strToNum (s : String) : JSNum :=
  let t := trimL s.toList
  if t.isEmpty then .fin 0
  else
    match t with
    | '-' :: rest =>
        match natOfDigits rest with
        | some n => if n = 0 then .negZero else .fin (-(n : ℚ))
        | none => .nan
    | '+' :: rest =>
        match natOfDigits rest with
        | some n => .fin (n : ℚ)
        | none => .nan
    | _ =>
        match natOfDigits t with
        | some n => .fin (n : ℚ)
        | none => .nan

namespace Value

/-- JavaScript ToBoolean (truthiness). -/
def toBool : Value → Bool
  | undefV => false
  | vnull => false
  | bool b => b
  | num .nan => false
  | num .negZero => false
  | num (.fin q) => decide (q ≠ 0)
  | num _ => true
  | str s => s ≠ ""
  | _ => true

/-- `v === null || v === undefined` (the evaluator's optional-chaining test). -/
def isNullish : Value → Bool
  | undefV => true
  | vnull => true
  | _ => false

/-- `v === null` (used to pick the word in the property-read error message). -/
def isNullV : Value → Bool
  | vnull => true
  | _ => false

/-- `typeof v === "function"`. -/
def isFunctionV : Value → Bool
  | closure _ _ => true
  | builtin _ => true
  | hostFn => true
  | _ => false

/-- Whether the value is a user closure (arrow-function value). -/
def isClosureV : Value → Bool
  | closure _ _ => true
  | _ => false

/-- JavaScript ToNumber, on the value subset the claims exercise (object
ToPrimitive is modelled as NaN; no claim converts objects to numbers). -/
def toNum : Value → JSNum
  | num n => n
  | bool b => if b then .fin 1 else .fin 0
  | vnull => .fin 0
  | undefV => .nan
  | str s => strToNum s
  | _ => .nan

end Value

mutual

/-- JavaScript ToString (`String(value)`), as the renderer and string
concatenation use it.  Functions stringify as a fixed placeholder form; no
claim observes a function's source text. -/
def jsToString : Value → String
  | .undefV => "undefined"
  | .vnull => "null"
  | .bool b => if b then "true" else "false"
  | .num n => numToString n
  | .str s => s
  | .arr xs => String.intercalate "," (jsToStringList xs)
  | .obj _ => "[object Object]"
  | .mapV => "[object Map]"
  | .closure _ _ => "() => \x7b\x7d"
  | .builtin _ => "function () \x7b [native code] \x7d"
  | .hostFn => "function anonymous() \x7b\x7d"

/-- Array elements join with `,`; `null`/`undefined` elements join as empty
strings (Array.prototype.toString). -/
def jsToStringList : List Value → List String
  | [] => []
  | v :: rest =>
      (match v with
       | .undefV => ""
       | .vnull => ""
       | w => jsToString w) :: jsToStringList rest

end

/-- The strings of `typeof`. -/
def typeofV : Value → String
  | .undefV => "undefined"
  | .vnull => "object"
  | .bool _ => "boolean"
  | .num _ => "number"
  | .str _ => "string"
  | .arr _ => "object"
  | .obj _ => "object"
  | .mapV => "object"
  | .closure _ _ => "function"
  | .builtin _ => "function"
  | .hostFn => "function"

/-- The JavaScript `+` operator on evaluated operands: string concatenation
when either operand is (or converts to) a string, numeric addition
otherwise. -/
def jsAdd (a b : Value) : Value :=
  let stringish : Value → Bool := fun v =>
    match v with
    | .str _ => true
    | .arr _ => true
    | .obj _ => true
    | .mapV => true
    | _ => false
  if stringish a || stringish b then .str (jsToString a ++ jsToString b)
  else .num (JSNum.add a.toNum b.toNum)

/-- `right === 0` as the first snapshot's `"/"` case tests it: true exactly
for the number values `+0` and `-0`. -/
def strictEqZero : Value → Bool
  | .num (.fin q) => decide (q = 0)
  | .num .negZero => true
  | _ => false

/-- A scope frame.  `own` are the frame object's own properties (what
`Object.hasOwn` sees); `proto` are properties reachable only through the
frame object's prototype chain, which identifier resolution must NOT
consult.  Frames created by the evaluator itself (the global scope built
with `Object.create(null)`, and the `\x7b\x7d` parameter frames, whose
inherited `Object.prototype` members never matter to `hasOwn`) carry an
empty `proto`. -/
structure Frame where
  own : List (String × Value)
  proto : List (String × Value)
  deriving Repr

/-- The evaluator's scope stack `this.scopes` (innermost frame first). -/
abbrev St := List Frame

/-- Own properties of the `Array.prototype` object, restricted to the
methods the claims exercise (each is the identical host function object
however it is reached, hence a single tag). -/
def arrayProtoProps : List (String × Value) :=
  [("push", .builtin .arrayPush), ("pop", .builtin .arrayPop),
   ("shift", .builtin .arrayShift), ("unshift", .builtin .arrayUnshift),
   ("splice", .builtin .arraySplice), ("reverse", .builtin .arrayReverse),
   ("sort", .builtin .arraySort), ("fill", .builtin .arrayFill),
   ("copyWithin", .builtin .arrayCopyWithin),
   ("slice", .builtin .arraySlice), ("concat", .builtin .arrayConcat)]

/-- Own properties of the `Map.prototype` object (modelled subset). -/
def mapProtoProps : List (String × Value) :=
  [("set", .builtin .mapSet), ("delete", .builtin .mapDelete),
   ("clear", .builtin .mapClear)]

/-- Own properties of the host `Object` constructor (modelled subset,
covering every `Object.*` path in the mutable-method list plus `keys`). -/
def objectStaticProps : List (String × Value) :=
  [("assign", .builtin .objectAssign), ("freeze", .builtin .objectFreeze),
   ("defineProperty", .builtin .objectDefineProperty),
   ("defineProperties", .builtin .objectDefineProperties),
   ("preventExtensions", .builtin .objectPreventExtensions),
   ("setPrototypeOf", .builtin .objectSetPrototypeOf),
   ("seal", .builtin .objectSeal), ("keys", .builtin .objectKeys)]

/-- Own properties of the modelled built-in function objects. -/
def builtinStatics : BFun → List (String × Value)
  | .arrayCtorB => [("prototype", .obj arrayProtoProps)]
  | .objectCtor => objectStaticProps
  | .mapCtor => [("prototype", .obj mapProtoProps)]
  | _ => []

/-- The shared `GLOBAL_SCOPE` own entries: the allow-listed host globals.
The source copies every name of `globals.builtin` present in `globalThis`
except `eval` and `globalThis`; the model carries the representatives the
claims exercise.  `eval` is absent by construction, matching the source's
explicit exclusion. -/
def globalOwn : List (String × Value) :=
  [("Object", .builtin .objectCtor), ("Array", .builtin .arrayCtorB),
   ("Map", .builtin .mapCtor), ("Function", .builtin .functionCtor)]

/-- The shared global scope frame (`Object.create(null)`: no prototype). -/
def globalScope : Frame := ⟨globalOwn, []⟩

/-- The scope stack of a fresh `Evaluator` instance: user context frame,
then the global scope (`this.scopes = [variables, GLOBAL_SCOPE]`). -/
def initSt (ctx : Frame) : St := [ctx, globalScope]

/-- `Object.hasOwn(v, prop)` on the modelled values. -/
def hasOwnPropV (v : Value) (p : String) : Bool
  := match v with
     | .obj props => (props.lookup p).isSome
     | .builtin f => ((builtinStatics f).lookup p).isSome
     | _ => false

/-- Own-property read used by the blocklist path resolution (only called
under a `hasOwnPropV` guard). -/
def getOwnPropV (v : Value) (p : String) : Value
  := match v with
     | .obj props => (props.lookup p).getD .undefV
     | .builtin f => ((builtinStatics f).lookup p).getD .undefV
     | _ => .undefV

/-- Full property read `object[property]` (own properties plus the modelled
prototype-chain methods; absent properties read as `undefined`). -/
def getPropS (v : Value) (key : String) : Value
  := match v with
     | .arr xs =>
         match natOfDigits key.toList with
         | some i => xs.getD i .undefV
         | none =>
             if key = "length" then .num (.fin (xs.length : ℚ))
             else (arrayProtoProps.lookup key).getD .undefV
     | .obj props => (props.lookup key).getD .undefV
     | .mapV => (mapProtoProps.lookup key).getD .undefV
     | .str s => if key = "length" then .num (.fin (s.length : ℚ)) else .undefV
     | .builtin f => ((builtinStatics f).lookup key).getD .undefV
     | _ => .undefV

/-- The dotted paths of `mutableMethods` (Evaluator.js lines 38-85),
verbatim. -/
def mutablePaths : List String :=
  ["Array.prototype.push", "Array.prototype.pop", "Array.prototype.shift",
   "Array.prototype.unshift", "Array.prototype.splice",
   "Array.prototype.reverse", "Array.prototype.sort", "Array.prototype.fill",
   "Array.prototype.copyWithin",
   "Object.freeze", "Object.defineProperty", "Object.defineProperties",
   "Object.preventExtensions", "Object.setPrototypeOf", "Object.assign",
   "Object.seal",
   "Reflect.set", "Reflect.defineProperty", "Reflect.deleteProperty",
   "Set.prototype.add", "Set.prototype.delete", "Set.prototype.clear",
   "WeakSet.prototype.add", "WeakSet.prototype.delete",
   "Map.prototype.set", "Map.prototype.delete", "Map.prototype.clear",
   "WeakMap.prototype.set", "WeakMap.prototype.delete",
   "Date.prototype.setMilliseconds", "Date.prototype.setSeconds",
   "Date.prototype.setUTCSeconds", "Date.prototype.setMinutes",
   "Date.prototype.setHours", "Date.prototype.setMonth",
   "Date.prototype.setDate", "Date.prototype.setFullYear",
   "Date.prototype.setUTCMinutes", "Date.prototype.setUTCHours",
   "Date.prototype.setUTCDate", "Date.prototype.setUTCMonth",
   "Date.prototype.setUTCFullYear", "Date.prototype.setTime",
   "Date.prototype.setYear", "RegExp.prototype.compile"]

/-- `path.split(".")` on the character list of a path. -/
def splitDots : List Char → List (List Char)
  | [] => [[]]
  | c :: rest =>
      if c = '.' then [] :: splitDots rest
      else
        match splitDots rest with
        | [] => [[c]]
        | fld :: more => (c :: fld) :: more

/-- `path.split(".")`. -/
def splitOnDot (s : String) : List String := (splitDots s.toList).map String.mk

/-- Resolve one dotted path against the (modelled) host globals, exactly as
the registry builder does: start at `globalThis[object]`, step through own
properties while the current value is truthy, and keep the result only when
it is a function.  Paths through hosts the model does not carry (Reflect,
Set, WeakSet, WeakMap, Date, RegExp) resolve to `none`, matching the
source's silent `filter(Boolean)` skip of absent hosts. -/
def resolvePath (path : String) : Option Value :=
  match splitOnDot path with
  | [] => none
  | objName :: props =>
      let start : Option Value := globalOwn.lookup objName
      let final : Option Value :=
        props.foldl
          (fun cur p =>
            match cur with
            | some c => if c.toBool && hasOwnPropV c p then some (getOwnPropV c p) else none
            | none => none)
          start
      match final with
      | some v => if v.isFunctionV then some v else none
      | none => none

/-- The resolved mutable-method set, as tags (the set holds function
objects; membership below is by identity, i.e. tag equality). -/
def mutableTags : List BFun :=
  mutablePaths.foldr
    (fun p acc =>
      match resolvePath p with
      | some (.builtin f) => f :: acc
      | _ => acc)
    []

/-- `mutableMethods.has(v)`: reference-identity membership, true only for
the modelled built-in function objects in the set (never for user closures,
never decided by a property NAME). -/
def mutHas (v : Value) : Bool
  := match v with
     | .builtin f => mutableTags.contains f
     | _ => false

/-- The errors the evaluator (and the external parser) can raise.
`fuelExhausted` is a modelling artifact for the unbounded recursion a host
call stack would allow; no theorem's instance reaches it. -/
inductive Err where
  | refNotDefined (name : String)
  | typeErrPropRead (prop : String) (objIsNull : Bool)
  | typeErrNotFunction (calledString : Option String)
  | mutableMethodErr
  | newFunctionNotAllowed
  | functionCtorNotAllowed
  | deleteNotSupported
  | notAConstructor
  | ctorRequiresNew
  | unsupportedNewCallee (calleeType : String)
  | syntaxErr (msg : String)
  | fuelExhausted
  deriving DecidableEq, Repr

/-- Interpolation of a possibly-`null` node string into an error message
(JavaScript renders `null` in a template literal as the text `null`). -/
def optStr : Option String → String
  | some s => s
  | none => "null"

/-- The user-visible message of each error, following the `ERROR_MESSAGES`
constants of the first snapshot. -/
def errMessage : Err → String
  | .refNotDefined n => n ++ " is not defined"
  | .typeErrPropRead p objIsNull =>
      "Cannot read property '" ++ p ++ "' of " ++ (if objIsNull then "null" else "undefined")
  | .typeErrNotFunction cs => optStr cs ++ " is not a function"
  | .mutableMethodErr => "Mutable method is not allowed"
  | .newFunctionNotAllowed => "Cannot use new with Function constructor"
  | .functionCtorNotAllowed => "Function constructor is not allowed"
  | .deleteNotSupported => "Delete operator is mutable and not supported"
  | .notAConstructor => "is not a constructor"
  | .ctorRequiresNew => "Constructor requires new"
  | .unsupportedNewCallee t => "Unsupported callee type '" ++ t ++ "' in new expression"
  | .syntaxErr m => m
  | .fuelExhausted => "call stack exhausted"

/-- `error instanceof ReferenceError`: only the undefined-identifier error
is constructed as a `ReferenceError` in the source. -/
def isReferenceError : Err → Bool
  | .refNotDefined _ => true
  | _ => false

/-- `String.prototype.endsWith`, as list-suffix testing. -/
def endsWithS (s post : String) : Bool := post.toList.isSuffixOf s.toList

/-- The renderer's catch condition (index.js line 44):
`error instanceof ReferenceError && error.message.endsWith("is not defined")`. -/
def rendererCatches (e : Err) : Bool :=
  isReferenceError e && endsWithS (errMessage e) "is not defined"

/-- `getNodeString` (first snapshot, lines 523-550): human-readable callee
text for `TypeError` messages; `none` models its `null` fallback.  For
`Literal` nodes the source returns the raw source slice; the model rebuilds
it from the literal value, which no claim's message inspects. -/
def getNodeString : Node → Option String
  | .ident n => some n
  | .lit (.numL q) => some (numToString (.fin q))
  | .lit (.strL s) => some ("\"" ++ s ++ "\"")
  | .lit (.boolL b) => some (if b then "true" else "false")
  | .lit .nullL => some "null"
  | .arrayLit _ => some "(array)"
  | .objLit _ => some "(object)"
  | .memberS o p _ => some (optStr (getNodeString o) ++ "." ++ p)
  | .memberC o pe _ => some (optStr (getNodeString o) ++ "[" ++ optStr (getNodeString pe) ++ "]")
  | _ => none

/-- acorn's `node.type` string for `NewExpression` callee rejection. -/
def nodeTypeName : Node → String
  | .lit _ => "Literal"
  | .ident _ => "Identifier"
  | .binary _ _ _ => "BinaryExpression"
  | .logical _ _ _ => "LogicalExpression"
  | .unary _ _ => "UnaryExpression"
  | .memberS _ _ _ => "MemberExpression"
  | .memberC _ _ _ => "MemberExpression"
  | .call _ _ _ => "CallExpression"
  | .newE _ _ => "NewExpression"
  | .cond _ _ _ => "ConditionalExpression"
  | .arrayLit _ => "ArrayExpression"
  | .objLit _ => "ObjectExpression"
  | .arrow _ _ => "ArrowFunctionExpression"
  | .chain _ => "ChainExpression"

/-- Identifier resolution (`handleIdentifier`, lines 384-393): walk the
scope stack, take the first frame whose OWN properties contain the name
(`Object.hasOwn`), else raise `ReferenceError`. -/
def identLookup (name : String) : St → Except Err Value
  | [] => .error (.refNotDefined name)
  | f :: rest =>
      match f.own.lookup name with
      | some v => .ok v
      | none => identLookup name rest

/-- Normalise one `Array.prototype.slice` index argument. -/
def sliceIndex (len : Nat) (v : Value) : Nat :=
  match v.toNum with
  | .fin q =>
      let i : ℤ := ⌊q⌋
      if i < 0 then (max 0 ((len : ℤ) + i)).toNat else min i.toNat len
  | .negZero => 0
  | .nan => 0
  | .posInf => len
  | .negInf => 0

/-- `Array.prototype.slice` on the evaluated arguments. -/
def sliceL (xs : List Value) : List Value → List Value
  | [] => xs
  | [a] => xs.drop (sliceIndex xs.length a)
  | a :: b :: _ =>
      let s := sliceIndex xs.length a
      let e := sliceIndex xs.length b
      (xs.take e).drop s

/-- `Array.prototype.concat`: array arguments are flattened one level,
other arguments appended as elements. -/
def concatL (xs : List Value) (args : List Value) : List Value :=
  xs ++ args.flatMap (fun a => match a with | .arr ys => ys | v => [v])

/-- `newScope[params[i]] = args[i]`: positional parameter binding; missing
arguments bind to `undefined`, extra arguments are dropped. -/
def zipParams : List String → List Value → List (String × Value)
  | [], _ => []
  | p :: ps, [] => (p, .undefV) :: zipParams ps []
  | p :: ps, a :: as' => (p, a) :: zipParams ps as'

/-- Behaviour of `func.apply(target, args)` for the modelled host built-ins.
Mutating built-ins and uninvocable constructors are unreachable through the
evaluator (the blocklist or a prior TypeError fires first); their clauses
return `undefined` and are never exercised by a claim.  The `Function`
constructor clause models the host creating a fresh anonymous function. -/
def applyBuiltin (f : BFun) (target : Value) (args : List Value) : Except Err Value :=
  match f with
  | .arraySlice =>
      match target with
      | .arr xs => .ok (.arr (sliceL xs args))
      | _ => .ok .undefV
  | .arrayConcat =>
      match target with
      | .arr xs => .ok (.arr (concatL xs args))
      | _ => .ok .undefV
  | .objectKeys =>
      match args with
      | .obj props :: _ => .ok (.arr (props.map (fun p => .str p.1)))
      | _ => .ok (.arr [])
  | .functionCtor => .ok .hostFn
  | .arrayCtorB =>
      match args with
      | [.num (.fin q)] => .ok (.arr (List.replicate q.num.toNat .undefV))
      | _ => .ok (.arr args)
  | .objectCtor => .ok (.obj [])
  | .mapCtor => .error .ctorRequiresNew
  | _ => .ok .undefV

/-- `new Constructor(...args)` on the modelled values: `Map`, `Array` and
`Object` construct; arrow-function closures and non-functions raise the
host's not-a-constructor TypeError. -/
def construct (ctor : Value) (args : List Value) : Except Err Value :=
  match ctor with
  | .builtin .mapCtor => .ok .mapV
  | .builtin .arrayCtorB =>
      match args with
      | [.num (.fin q)] => .ok (.arr (List.replicate q.num.toNat .undefV))
      | _ => .ok (.arr args)
  | .builtin .objectCtor => .ok (.obj [])
  | .builtin .functionCtor => .ok .hostFn
  | _ => .error .notAConstructor

/-- Object-literal property assignment `obj[key] = value`: overwrite in
place when the key exists, append otherwise. -/
def setProp (props : List (String × Value)) (key : String) (v : Value) : List (String × Value) :=
  match props with
  | [] => [(key, v)]
  | (k, w) :: rest => if k = key then (k, v) :: rest else (k, w) :: setProp rest key v

/-- An evaluation outcome paired with the evaluator's scope stack after it.
Errors carry the stack as it stood when the exception was thrown: the source
mutates `this.scopes` in place, so state changes made before a throw
persist (which claim C5 is about). -/
abbrev Res := Except Err Value × St

/-- The value of a `Literal` node (`visit`, `case "Literal"`). -/
def litToValue : LitV → Value
  | .numL q => .num (.fin q)
  | .strL s => .str s
  | .boolL b => .bool b
  | .nullL => .vnull

/-- `handleBinaryExpression` on already-evaluated operands.  For `"/"` the
first snapshot (lines 255-262) returns `1 / right` whenever `right === 0`;
the second snapshot's `BINARY_OPERATION_MAP` uses plain `a / b`.  `snap2`
selects between them. -/
def binOpEval (snap2 : Bool) (op : BinOp) (a b : Value) : Value :=
  match op with
  | .addB => jsAdd a b
  | .subB => .num (JSNum.sub a.toNum b.toNum)
  | .mulB => .num (JSNum.mul a.toNum b.toNum)
  | .divB =>
      if snap2 then .num (JSNum.div a.toNum b.toNum)
      else if strictEqZero b then .num (JSNum.div (.fin 1) b.toNum)
      else .num (JSNum.div a.toNum b.toNum)

/-- `node.callee.optional` (falsy for node kinds without the flag). -/
def calleeOptional : Node → Bool
  | .memberS _ _ o => o
  | .memberC _ _ o => o
  | .call _ _ o => o
  | _ => false

/-- The receiver subexpression of a member-expression callee
(`node.callee.object` when `node.callee.type === "MemberExpression"`). -/
def calleeObject : Node → Option Node
  | .memberS o _ _ => some o
  | .memberC o _ _ => some o
  | _ => none

mutual

/-- `Evaluator.visit` (and the handlers it dispatches to), as state-passing
evaluation.  `fuel` bounds recursion depth (a host call stack analogue) and
is decremented on every recursive visit; every claim theorem either
quantifies over sufficient fuel or uses a concrete sufficient amount. -/
def eval (snap2 : Bool) : Nat → Node → St → Res
  | 0, _, st => (.error .fuelExhausted, st)
  | fuel + 1, nd, st =>
    match nd with
    | .lit v => (.ok (litToValue v), st)
    | .ident name => (identLookup name st, st)
    | .binary op l r =>
        match eval snap2 fuel l st with
        | (.error e, st1) => (.error e, st1)
        | (.ok lv, st1) =>
            match eval snap2 fuel r st1 with
            | (.error e, st2) => (.error e, st2)
            | (.ok rv, st2) => (.ok (binOpEval snap2 op lv rv), st2)
    | .logical op l r =>
        match eval snap2 fuel l st with
        | (.error e, st1) => (.error e, st1)
        | (.ok lv, st1) =>
            match op with
            | .andL => if lv.toBool then eval snap2 fuel r st1 else (.ok lv, st1)
            | .orL => if lv.toBool then (.ok lv, st1) else eval snap2 fuel r st1
            | .nullishL => if lv.isNullish then eval snap2 fuel r st1 else (.ok lv, st1)
    | .unary op arg =>
        match op with
        | .delU => (.error .deleteNotSupported, st)
        | _ =>
            match eval snap2 fuel arg st with
            | (.error e, st1) => (.error e, st1)
            | (.ok v, st1) =>
                match op with
                | .negU => (.ok (.num (JSNum.neg v.toNum)), st1)
                | .plusU => (.ok (.num v.toNum), st1)
                | .bangU => (.ok (.bool (!v.toBool)), st1)
                | .tyofU => (.ok (.str (typeofV v)), st1)
                | _ => (.ok .undefV, st1)
    | .memberS o pname opt =>
        match eval snap2 fuel o st with
        | (.error e, st1) => (.error e, st1)
        | (.ok ov, st1) =>
            if ov.isNullish then
              if opt then (.ok .undefV, st1)
              else (.error (.typeErrPropRead pname ov.isNullV), st1)
            else (.ok (getPropS ov pname), st1)
    | .memberC o pe opt =>
        match eval snap2 fuel o st with
        | (.error e, st1) => (.error e, st1)
        | (.ok ov, st1) =>
            match eval snap2 fuel pe st1 with
            | (.error e, st2) => (.error e, st2)
            | (.ok pv, st2) =>
                if ov.isNullish then
                  if opt then (.ok .undefV, st2)
                  else (.error (.typeErrPropRead (jsToString pv) ov.isNullV), st2)
                else (.ok (getPropS ov (jsToString pv)), st2)
    | .call callee args opt =>
        match
          ((match calleeObject callee with
            | some o =>
                match eval snap2 fuel o st with
                | (.error e, st1) => (.error e, st1)
                | (.ok ov, st1) =>
                    if mutHas ov then (.error Err.mutableMethodErr, st1)
                    else (.ok Value.undefV, st1)
            | none => (.ok Value.undefV, st)) : Res) with
        | (.error e, stA) => (.error e, stA)
        | (.ok _, stA) =>
            match eval snap2 fuel callee stA with
            | (.error e, stB) => (.error e, stB)
            | (.ok fv, stB) =>
                if fv.isFunctionV then
                  if snap2 &&
                      (match fv with
                       | .builtin .functionCtor => true
                       | _ => false) then
                    (.error .functionCtorNotAllowed, stB)
                  else
                    match evalArgs snap2 fuel args stB with
                    | (.error e, stC) => (.error e, stC)
                    | (.ok vs, stC) =>
                        if mutHas fv then (.error .mutableMethodErr, stC)
                        else
                          match
                            ((match calleeObject callee with
                              | some o => eval snap2 fuel o stC
                              | none => (.ok Value.vnull, stC)) : Res) with
                          | (.error e, stD) => (.error e, stD)
                          | (.ok tv, stD) =>
                              match fv with
                              | .closure ps body =>
                                  match eval snap2 fuel body (⟨zipParams ps vs, []⟩ :: stD) with
                                  | (.ok rv, stE) => (.ok rv, stE.tail)
                                  | (.error e, stE) => (.error e, stE)
                              | .builtin bf => (applyBuiltin bf tv vs, stD)
                              | _ => (.ok .undefV, stD)
                else
                  if fv.isNullish && (opt || calleeOptional callee) then (.ok .undefV, stB)
                  else (.error (.typeErrNotFunction (getNodeString callee)), stB)
    | .newE callee args =>
        match callee with
        | .ident cname =>
            if cname = "Function" then (.error .newFunctionNotAllowed, st)
            else
              match eval snap2 fuel callee st with
              | (.error e, st1) => (.error e, st1)
              | (.ok cv, st1) =>
                  match evalArgs snap2 fuel args st1 with
                  | (.error e, st2) => (.error e, st2)
                  | (.ok vs, st2) => (construct cv vs, st2)
        | _ => (.error (.unsupportedNewCallee (nodeTypeName callee)), st)
    | .cond t c a =>
        match eval snap2 fuel t st with
        | (.error e, st1) => (.error e, st1)
        | (.ok tv, st1) =>
            if tv.toBool then eval snap2 fuel c st1 else eval snap2 fuel a st1
    | .arrayLit elems =>
        match evalArgs snap2 fuel elems st with
        | (.error e, st1) => (.error e, st1)
        | (.ok vs, st1) => (.ok (.arr vs), st1)
    | .objLit props =>
        match evalProps snap2 fuel props [] st with
        | (.error e, st1) => (.error e, st1)
        | (.ok ps, st1) => (.ok (.obj ps), st1)
    | .arrow ps body => (.ok (.closure ps body), st)
    | .chain e => eval snap2 fuel e st

/-- Sequential left-to-right evaluation of argument / element lists
(`node.arguments.map((arg) => this.visit(arg))`), threading the scope
stack and propagating the first error. -/
def evalArgs (snap2 : Bool) : Nat → List Node → St → Except Err (List Value) × St
  | _, [], st => (.ok [], st)
  | 0, _ :: _, st => (.error .fuelExhausted, st)
  | fuel + 1, a :: rest, st =>
      match eval snap2 fuel a st with
      | (.error e, st1) => (.error e, st1)
      | (.ok v, st1) =>
          match evalArgs snap2 fuel rest st1 with
          | (.error e, st2) => (.error e, st2)
          | (.ok vs, st2) => (.ok (v :: vs), st2)

/-- `handleObjectExpression`: evaluate each property value in source order
and assign it onto the object under construction. -/
def evalProps (snap2 : Bool) :
    Nat → List (String × Node) → List (String × Value) → St →
    Except Err (List (String × Value)) × St
  | _, [], acc, st => (.ok acc, st)
  | 0, _ :: _, _, st => (.error .fuelExhausted, st)
  | fuel + 1, (k, pn) :: rest, acc, st =>
      match eval snap2 fuel pn st with
      | (.error e, st1) => (.error e, st1)
      | (.ok v, st1) => evalProps snap2 fuel rest (setProp acc k v) st1

end

/-!
### Template renderer (`src/index.js`)

`evaluatorTemplate` replaces every match of
`TEMPLATE_EXPRESSION_REGEX = /\$?\x7b\x7b((?:[^\x7b\x7d]|\x7b[^\x7b\x7d]*\x7d)+)\x7d\x7d/g`
by the stringified evaluation of the captured expression, catching exactly
undefined-variable `ReferenceError`s (substituting the empty string) and
rethrowing everything else.  The expression text inside a match is handed to
the external parser (acorn); the embedding takes that parser as a function
parameter `parseE`, per the spec's treatment of parsing as an external
collaborator. -/

/-- Greedy parse of the capture group `(?:[^\x7b\x7d]|\x7b[^\x7b\x7d]*\x7d)+`:
maximal run of non-brace characters and single-level brace groups.  Greedy
matching without backtracking coincides with the JavaScript regex here: when
the run stops, the next character is a bare brace that no shorter run could
turn into `\x7d\x7d`. -/
def munchAtoms : Nat → List Char → List Char × List Char
  | 0, s => ([], s)
  | _ + 1, [] => ([], [])
  | fuel + 1, c :: t =>
      if c = '\x7b' then
        let inner := t.takeWhile (fun d => !(d == '\x7b') && !(d == '\x7d'))
        match t.drop inner.length with
        | '\x7d' :: t3 =>
            let (cs, r) := munchAtoms fuel t3
            ('\x7b' :: (inner ++ '\x7d' :: cs), r)
        | _ => ([], c :: t)
      else if c = '\x7d' then ([], c :: t)
      else
        let (cs, r) := munchAtoms fuel t
        (c :: cs, r)

/-- Try the whole template-expression regex at the head of `s`; on success
return the captured content and the suffix after the closing `\x7d\x7d`. -/
def matchAt (s : List Char) : Option (List Char × List Char) :=
  match
    (match s with
     | '$' :: '\x7b' :: '\x7b' :: t => some t
     | '\x7b' :: '\x7b' :: t => some t
     | _ => none) with
  | none => none
  | some t =>
      match munchAtoms t.length t with
      | (content, rest) =>
          if content.isEmpty then none
          else
            match rest with
            | '\x7d' :: '\x7d' :: r2 => some (content, r2)
            | _ => none

/-- Leftmost regex match: the text before it, the captured expression
content, and the remainder after the match. -/
def findSplit : List Char → Option (List Char × List Char × List Char)
  | [] => none
  | c :: rest =>
      match matchAt (c :: rest) with
      | some (content, after) => some ([], content, after)
      | none =>
          match findSplit rest with
          | some (pre, content, after) => some (c :: pre, content, after)
          | none => none

/-- The replacement callback (index.js lines 38-49): trim the captured
expression, parse and evaluate it against the shared evaluator state, return
the stringified value; an undefined-variable `ReferenceError` degrades to
the empty string, every other error is rethrown. -/
def applyExprPolicy (parseE : String → Except Err Node) (efuel : Nat)
    (content : List Char) (st : St) : Except Err (List Char) × St :=
  match parseE (String.mk (trimL content)) with
  | .error e => if rendererCatches e then (.ok [], st) else (.error e, st)
  | .ok nd =>
      match eval false efuel nd st with
      | (.ok v, st1) => (.ok (jsToString v).toList, st1)
      | (.error e, st1) => if rendererCatches e then (.ok [], st1) else (.error e, st1)

/-- `template.replace(TEMPLATE_EXPRESSION_REGEX, callback)` with a throwing
callback: process matches left to right, thread the one shared evaluator's
scope stack through the callbacks, abort on the first rethrown error. -/
def renderLoop (parseE : String → Except Err Node) (efuel : Nat) :
    Nat → List Char → St → Except Err (List Char) × St
  | 0, _, st => (.error .fuelExhausted, st)
  | fuel + 1, s, st =>
      match findSplit s with
      | none => (.ok s, st)
      | some (pre, content, rest) =>
          match applyExprPolicy parseE efuel content st with
          | (.ok repl, st1) =>
              match renderLoop parseE efuel fuel rest st1 with
              | (.ok out, st2) => (.ok (pre ++ repl ++ out), st2)
              | (.error e, st2) => (.error e, st2)
          | (.error e, st1) => (.error e, st1)

/-- `evaluatorTemplate(template, context)`: one `Evaluator` instance for the
whole render, then the replace loop. -/
def evaluatorTemplate (parseE : String → Except Err Node) (efuel : Nat)
    (template : String) (ctx : Frame) : Except Err String × St :=
  match renderLoop parseE efuel (template.length + 1) template.toList (initSt ctx) with
  | (.ok cs, st) => (.ok (String.mk cs), st)
  | (.error e, st) => (.error e, st)

/-!
### Template tokenizer (`src/TemplateParser.js`)

A character-by-character state machine distinguishing plain text, expression
interiors, and single-quoted / double-quoted / backtick strings nested in an
expression (each with an escape state), so that an `expressionEnd` marker
inside a string literal does not terminate the expression. -/

/-- Constructor options (`expressionStart`/`expressionEnd` fall back to
`\x7b\x7b` / `\x7d\x7d` when absent or empty; `preserveWhitespace` is true only
when passed exactly `true`). -/
structure TPOptions where
  expressionStart : String := "\x7b\x7b"
  expressionEnd : String := "\x7d\x7d"
  preserveWhitespace : Bool := false

/-- Tokens produced by `parse`: literal text or an embedded expression, with
source offsets (`tstart`/`tend` for the whole token, content offsets for the
expression text between the delimiters). -/
inductive Token where
  | text (value : String) (tstart tend : Nat)
  | exprTok (value : String) (tstart tend cstart cend : Nat)
  deriving DecidableEq, Repr

/-- The state-machine states of `TemplateParser.parse`. -/
inductive PState where
  | textS | exprS | stringSQ | stringDQ | templateS
  | escSQ | escDQ | escTemplate | escExpr
  deriving DecidableEq, Repr

/-- The scanning loop of `TemplateParser.parse`: position, state, buffer,
recorded expression start, and accumulated tokens; ends with the source's
post-loop flush (a pending expression is emitted as literal text
reproducing the opening marker plus the partial content).  `fuel` is a
termination bound; `parse` supplies `template.length + 1`, which is always
sufficient since every iteration advances the position. -/
def tpLoop (exprStart exprEnd : List Char) (preserveWs : Bool) (tmpl : List Char) :
    Nat → Nat → PState → List Char → Nat → List Token → List Token
  | 0, _, _, _, _, acc => acc
  | fuel + 1, pos, state, buffer, exprStartPos, acc =>
      if pos < tmpl.length then
        let char := tmpl.getD pos ' '
        let nextChar : Option Char := tmpl.get? (pos + 1)
        match state with
        | .textS =>
            if exprStart.isPrefixOf (tmpl.drop pos) then
              let acc' :=
                if buffer.length > 0 then
                  acc ++ [.text (String.mk buffer) (pos - buffer.length) pos]
                else acc
              tpLoop exprStart exprEnd preserveWs tmpl fuel (pos + exprStart.length) .exprS [] pos acc'
            else
              tpLoop exprStart exprEnd preserveWs tmpl fuel (pos + 1) .textS (buffer ++ [char]) exprStartPos acc
        | .exprS =>
            if char = '\'' then
              tpLoop exprStart exprEnd preserveWs tmpl fuel (pos + 1) .stringSQ (buffer ++ [char]) exprStartPos acc
            else if char = '"' then
              tpLoop exprStart exprEnd preserveWs tmpl fuel (pos + 1) .stringDQ (buffer ++ [char]) exprStartPos acc
            else if char = '`' then
              tpLoop exprStart exprEnd preserveWs tmpl fuel (pos + 1) .templateS (buffer ++ [char]) exprStartPos acc
            else if char = '\\' then
              let st' : PState :=
                match nextChar with
                | some '\'' => .escSQ
                | some '"' => .escDQ
                | some '`' => .escTemplate
                | _ => .escExpr
              tpLoop exprStart exprEnd preserveWs tmpl fuel (pos + 1) st' (buffer ++ [char]) exprStartPos acc
            else if exprEnd.isPrefixOf (tmpl.drop pos) then
              let exprValue := if preserveWs then buffer else trimL buffer
              let acc' :=
                if exprValue.length > 0 then
                  acc ++ [.exprTok (String.mk exprValue) exprStartPos (pos + exprEnd.length)
                            (exprStartPos + exprStart.length) pos]
                else acc
              tpLoop exprStart exprEnd preserveWs tmpl fuel (pos + exprEnd.length) .textS [] exprStartPos acc'
            else
              tpLoop exprStart exprEnd preserveWs tmpl fuel (pos + 1) .exprS (buffer ++ [char]) exprStartPos acc
        | .stringSQ =>
            let st' : PState := if char = '\\' then .escSQ else if char = '\'' then .exprS else .stringSQ
            tpLoop exprStart exprEnd preserveWs tmpl fuel (pos + 1) st' (buffer ++ [char]) exprStartPos acc
        | .stringDQ =>
            let st' : PState := if char = '\\' then .escDQ else if char = '"' then .exprS else .stringDQ
            tpLoop exprStart exprEnd preserveWs tmpl fuel (pos + 1) st' (buffer ++ [char]) exprStartPos acc
        | .templateS =>
            let st' : PState := if char = '\\' then .escTemplate else if char = '`' then .exprS else .templateS
            tpLoop exprStart exprEnd preserveWs tmpl fuel (pos + 1) st' (buffer ++ [char]) exprStartPos acc
        | .escSQ =>
            tpLoop exprStart exprEnd preserveWs tmpl fuel (pos + 1) .stringSQ (buffer ++ [char]) exprStartPos acc
        | .escDQ =>
            tpLoop exprStart exprEnd preserveWs tmpl fuel (pos + 1) .stringDQ (buffer ++ [char]) exprStartPos acc
        | .escTemplate =>
            tpLoop exprStart exprEnd preserveWs tmpl fuel (pos + 1) .templateS (buffer ++ [char]) exprStartPos acc
        | .escExpr =>
            tpLoop exprStart exprEnd preserveWs tmpl fuel (pos + 1) .exprS (buffer ++ [char]) exprStartPos acc
      else
        if buffer.length > 0 then
          if state = .textS then
            acc ++ [.text (String.mk buffer) (pos - buffer.length) pos]
          else
            acc ++ [.text (String.mk (exprStart ++ buffer)) exprStartPos pos]
        else acc

/-- `TemplateParser.parse(template)`. -/
def tpParse (opts : TPOptions) (template : String) : List Token :=
  tpLoop opts.expressionStart.toList opts.expressionEnd.toList opts.preserveWhitespace
    template.toList (template.length + 1) 0 .textS [] 0 []

/-- Whether the left operand's value already determines a logical
expression's result, per `handleLogicalExpression`: falsy for `&&`, truthy
for `||`, non-nullish for `??`. -/
def decidedBy : LogOp → Value → Bool
  | .andL, v => !v.toBool
  | .orL, v => v.toBool
  | .nullishL, v => !v.isNullish

/-- A sample external-parser table used by the concrete render theorems: the
ASTs acorn would produce for the few expressions occurring in those
templates, and a `SyntaxError` for anything else. -/
def sampleParse : String → Except Err Node := fun s =>
  if s = "x" then .ok (.ident "x")
  else if s = "y" then .ok (.ident "y")
  else if s = "q.r" then .ok (.memberS (.ident "q") "r" false)
  else .error (.syntaxErr "Unexpected token")

/-- The quote character that terminates each of the tokenizer's three
string-literal states (single-quoted, double-quoted, backtick). -/
def stringQuote : PState → Option Char
  | .stringSQ => some '\''
  | .stringDQ => some '"'
  | .templateS => some '`'
  | _ => none

/-!
### Shared lemmas -/

/-- No host built-in application produces the mutable-method security error:
that error is raised only by the two explicit blocklist checks in
`handleCallExpression`. -/
theorem applyBuiltin_ne_mut (bf : BFun) (t : Value) (as' : List Value) :
    applyBuiltin bf t as' ≠ .error .mutableMethodErr := by
  cases bf <;> simp [applyBuiltin] <;> (try split) <;> simp

/-- The renderer's catch condition accepts every undefined-identifier
`ReferenceError` (its message always ends in `is not defined`). -/
theorem rendererCatches_ref (nm : String) : rendererCatches (.refNotDefined nm) = true := by
  simp [rendererCatches, isReferenceError, errMessage, endsWithS, String.toList]
  exact ⟨nm.data ++ [' '], by simp⟩

/-- The renderer's catch condition rejects every non-`ReferenceError`. -/
theorem rendererCatches_not_ref (e : Err) (h : isReferenceError e = false) :
    rendererCatches e = false := by
  simp [rendererCatches, h]

/-- A list of literal elements evaluates to the corresponding values under
any sufficient fuel, leaving the scope stack unchanged. -/
theorem evalArgsLits (l : List LitV) :
    ∀ (j : Nat) (st : St), l.length + 1 ≤ j →
      evalArgs false j (l.map .lit) st = (.ok (l.map litToValue), st) := by
  induction l with
  | nil => intro j st _; cases j <;> simp [evalArgs]
  | cons a t ih =>
      intro j st h
      simp [List.length] at h
      obtain ⟨j1, rfl⟩ : ∃ j1, j = j1 + 1 := ⟨j - 1, by omega⟩
      obtain ⟨j2, rfl⟩ : ∃ j2, j1 = j2 + 1 := ⟨j1 - 1, by omega⟩
      have ht : evalArgs false (j2 + 1) (t.map .lit) st = (.ok (t.map litToValue), st) :=
        ih (j2 + 1) st (by omega)
      simp [evalArgs, eval, ht]

/-- An array literal of literals evaluates to the corresponding array value
under any sufficient fuel, leaving the scope stack unchanged. -/
theorem evalArrayLits (l : List LitV) :
    ∀ (j : Nat) (st : St), l.length + 2 ≤ j →
      eval false j (.arrayLit (l.map .lit)) st = (.ok (.arr (l.map litToValue)), st) := by
  intro j st h
  match j, h with
  | j + 1, _ => simp [eval, evalArgsLits l j st (by omega)]

/-- Reading the character at the junction of an append. -/
theorem getD_append_len (pre l : List Char) (c d : Char) :
    (pre ++ c :: l).getD pre.length d = c := by
  induction pre with
  | nil => rfl
  | cons a t ih => simpa using ih

/-- One scanning step inside any of the three string-literal states: a
character that is neither that state's closing quote nor a backslash is
appended to the buffer and the state is unchanged — no token is emitted and
no transition towards `TEXT` happens, whatever the character (in particular
a character of the expression-end marker). -/
theorem tpLoop_string_step (es ee : List Char) (pws : Bool) (tmpl : List Char)
    (fuel pos : Nat) (s : PState) (q : Char) (buffer : List Char) (esp : Nat)
    (acc : List Token)
    (hq : stringQuote s = some q)
    (hpos : pos < tmpl.length)
    (hc : tmpl.getD pos ' ' ≠ q) (hb : tmpl.getD pos ' ' ≠ '\\') :
    tpLoop es ee pws tmpl (fuel + 1) pos s buffer esp acc =
      tpLoop es ee pws tmpl fuel (pos + 1) s (buffer ++ [tmpl.getD pos ' ']) esp acc := by
  cases s with
  | stringSQ =>
      have hq1 : q = '\'' := by simpa [stringQuote] using hq.symm
      rw [hq1] at hc
      rw [tpLoop, if_pos hpos]
      simp only [if_neg hb, if_neg hc]
  | stringDQ =>
      have hq1 : q = '"' := by simpa [stringQuote] using hq.symm
      rw [hq1] at hc
      rw [tpLoop, if_pos hpos]
      simp only [if_neg hb, if_neg hc]
  | templateS =>
      have hq1 : q = '`' := by simpa [stringQuote] using hq.symm
      rw [hq1] at hc
      rw [tpLoop, if_pos hpos]
      simp only [if_neg hb, if_neg hc]
  | textS => simp [stringQuote] at hq
  | exprS => simp [stringQuote] at hq
  | escSQ => simp [stringQuote] at hq
  | escDQ => simp [stringQuote] at hq
  | escTemplate => simp [stringQuote] at hq
  | escExpr => simp [stringQuote] at hq

/-- A whole run of characters free of the closing quote and of backslashes —
the expression-end marker included — is consumed inside a string-literal
state without emitting any token, leaving the state and ending with the run
appended to the buffer. -/
theorem tpLoop_string_run (es ee : List Char) (pws : Bool) :
    ∀ (inner pre post : List Char) (fuel : Nat) (s : PState) (q : Char)
      (buffer : List Char) (esp : Nat) (acc : List Token),
      stringQuote s = some q →
      (∀ c ∈ inner, c ≠ q ∧ c ≠ '\\') →
      inner.length ≤ fuel →
      tpLoop es ee pws (pre ++ inner ++ post) (fuel + 1) pre.length s buffer esp acc =
        tpLoop es ee pws (pre ++ inner ++ post) (fuel + 1 - inner.length)
          (pre.length + inner.length) s (buffer ++ inner) esp acc := by
  intro inner
  induction inner with
  | nil => intro pre post fuel s q buffer esp acc _ _ _; simp
  | cons c cs ih =>
      intro pre post fuel s q buffer esp acc hq hin hlen
      have hc : c ≠ q ∧ c ≠ '\\' := hin c (by simp)
      simp only [List.length_cons] at hlen
      obtain ⟨f1, rfl⟩ : ∃ f1, fuel = f1 + 1 := ⟨fuel - 1, by omega⟩
      have hassoc : pre ++ (c :: cs) ++ post = pre ++ c :: (cs ++ post) := by simp
      have hpos : pre.length < (pre ++ (c :: cs) ++ post).length := by
        simp [List.length_append]
      have hchar : (pre ++ (c :: cs) ++ post).getD pre.length ' ' = c := by
        rw [hassoc]; exact getD_append_len pre (cs ++ post) c ' '
      have hstep := tpLoop_string_step es ee pws (pre ++ (c :: cs) ++ post) (f1 + 1)
        pre.length s q buffer esp acc hq hpos (by rw [hchar]; exact hc.1)
        (by rw [hchar]; exact hc.2)
      rw [hchar] at hstep
      rw [hstep]
      have hih := ih (pre ++ [c]) post f1 s q (buffer ++ [c]) esp acc hq
        (fun x hx => hin x (by simp [hx])) (by omega)
      simp only [List.append_assoc, List.singleton_append, List.length_append,
        List.length_singleton, List.length_cons] at hih ⊢
      rw [show f1 + 1 + 1 - (cs.length + 1) = f1 + 1 - cs.length from by omega,
        show pre.length + (cs.length + 1) = pre.length + 1 + cs.length from by omega]
      exact hih

/-!
### Claim theorems -/

/-- C1: a call expression is rejected with the mutable-method security error
exactly when the resolved receiver value or the resolved callee function
value is a member of the mutable-method set, membership being tested on the
function object's identity (tag), never on a property name.  The first two
conjuncts state the if-and-only-if for member-expression callees and for
identifier callees (under stable sub-evaluations, with a non-closure callee:
a user closure's body re-enters these same checks per inner call).  The
remaining conjuncts instantiate the claim: `push`, a computed
`"pu" + "sh"` alias, `pop`, `sort`, `Object.assign` and
`(new Map()).set` are all rejected; `slice` and `concat` on the same
receiver type succeed with the expected values; and a user function merely
NAMED `push` is called normally. -/
theorem c1_call_mutable_method_identity :
    (∀ (k : Nat) (o : Node) (pname : String) (args : List Node) (st : St)
       (vo : Value) (vs : List Value),
       (∀ j, k ≤ j → eval false j o st = (.ok vo, st)) →
       (∀ j, k ≤ j → evalArgs false j args st = (.ok vs, st)) →
       vo.isNullish = false →
       (getPropS vo pname).isClosureV = false →
       ∀ m, k + 2 ≤ m →
         ((eval false m (.call (.memberS o pname false) args false) st).1 =
             .error .mutableMethodErr ↔
           (mutHas vo = true ∨ mutHas (getPropS vo pname) = true))) ∧
    (∀ (k : Nat) (x : String) (args : List Node) (st : St) (f : Value) (vs : List Value),
       identLookup x st = .ok f →
       (∀ j, k ≤ j → evalArgs false j args st = (.ok vs, st)) →
       f.isClosureV = false →
       ∀ m, k + 2 ≤ m →
         ((eval false m (.call (.ident x) args false) st).1 = .error .mutableMethodErr ↔
           mutHas f = true)) ∧
    (eval false 20 (.call (.memberS (.arrayLit [.lit (.numL 1), .lit (.numL 2)]) "push" false)
        [.lit (.numL 3)] false) (initSt ⟨[], []⟩)).1 = .error .mutableMethodErr ∧
    (eval false 20 (.call (.memberC (.arrayLit [.lit (.numL 1)])
        (.binary .addB (.lit (.strL "pu")) (.lit (.strL "sh"))) false)
        [.lit (.numL 3)] false) (initSt ⟨[], []⟩)).1 = .error .mutableMethodErr ∧
    (eval false 20 (.call (.memberS (.arrayLit [.lit (.numL 1), .lit (.numL 2)]) "pop" false)
        [] false) (initSt ⟨[], []⟩)).1 = .error .mutableMethodErr ∧
    (eval false 20 (.call (.memberS (.arrayLit [.lit (.numL 2), .lit (.numL 1)]) "sort" false)
        [] false) (initSt ⟨[], []⟩)).1 = .error .mutableMethodErr ∧
    (eval false 20 (.call (.memberS (.ident "Object") "assign" false)
        [.objLit [("a", .lit (.numL 1))], .objLit []] false) (initSt ⟨[], []⟩)).1 =
      .error .mutableMethodErr ∧
    (eval false 20 (.call (.memberS (.newE (.ident "Map") []) "set" false)
        [.lit (.numL 1), .lit (.numL 2)] false) (initSt ⟨[], []⟩)).1 =
      .error .mutableMethodErr ∧
    eval false 20 (.call (.memberS (.arrayLit [.lit (.numL 1), .lit (.numL 2)]) "slice" false)
        [] false) (initSt ⟨[], []⟩) =
      (.ok (.arr [.num (.fin 1), .num (.fin 2)]), initSt ⟨[], []⟩) ∧
    eval false 20 (.call (.memberS (.arrayLit [.lit (.numL 1)]) "concat" false)
        [.arrayLit [.lit (.numL 2)]] false) (initSt ⟨[], []⟩) =
      (.ok (.arr [.num (.fin 1), .num (.fin 2)]), initSt ⟨[], []⟩) ∧
    (eval false 20 (.call (.ident "push") [.lit (.numL 5)] false)
        (initSt ⟨[("push", .closure ["x"] (.ident "x"))], []⟩)).1 = .ok (.num (.fin 5)) := by
  refine ⟨?_, ?_, by rfl, by rfl, by rfl, by rfl, by rfl, by rfl, by rfl, by rfl, by rfl⟩
  · intro k o pname args st vo vs h1 h2 hnn hnc m hm
    obtain ⟨d, rfl⟩ : ∃ d, m = k + 2 + d := ⟨m - (k + 2), by omega⟩
    have e1 : eval false (k + 1 + d) o st = (.ok vo, st) := h1 _ (by omega)
    have e2 : evalArgs false (k + 1 + d) args st = (.ok vs, st) := h2 _ (by omega)
    have e0 : eval false (k + d) o st = (.ok vo, st) := h1 _ (by omega)
    have hmem : eval false (k + 1 + d) (.memberS o pname false) st =
        (.ok (getPropS vo pname), st) := by
      rw [show k + 1 + d = (k + d) + 1 from by omega]
      simp [eval, e0, hnn]
    rw [show k + 2 + d = (k + 1 + d) + 1 from by omega]
    cases hvo : mutHas vo with
    | true => simp [eval, calleeObject, e1, hvo]
    | false =>
        simp [eval, calleeObject, e1, hvo, hmem, e2]
        cases hfv : getPropS vo pname with
        | closure ps body => rw [hfv] at hnc; simp [Value.isClosureV] at hnc
        | builtin bf =>
            simp [Value.isFunctionV, mutHas]
            cases hc : mutableTags.contains bf with
            | true => simp
            | false => simp [applyBuiltin_ne_mut]
        | hostFn => simp [Value.isFunctionV, mutHas]
        | undefV => simp [Value.isFunctionV, mutHas, Value.isNullish, calleeOptional]
        | vnull => simp [Value.isFunctionV, mutHas, Value.isNullish, calleeOptional]
        | bool b => simp [Value.isFunctionV, mutHas, Value.isNullish, calleeOptional]
        | num nn => simp [Value.isFunctionV, mutHas, Value.isNullish, calleeOptional]
        | str s => simp [Value.isFunctionV, mutHas, Value.isNullish, calleeOptional]
        | arr xs => simp [Value.isFunctionV, mutHas, Value.isNullish, calleeOptional]
        | obj ps => simp [Value.isFunctionV, mutHas, Value.isNullish, calleeOptional]
        | mapV => simp [Value.isFunctionV, mutHas, Value.isNullish, calleeOptional]
  · intro k x args st f vs hid h2 hnc m hm
    obtain ⟨d, rfl⟩ : ∃ d, m = k + 2 + d := ⟨m - (k + 2), by omega⟩
    have e2 : evalArgs false (k + 1 + d) args st = (.ok vs, st) := h2 _ (by omega)
    have eid : eval false (k + 1 + d) (.ident x) st = (.ok f, st) := by
      rw [show k + 1 + d = (k + d) + 1 from by omega]
      simp [eval, hid]
    rw [show k + 2 + d = (k + 1 + d) + 1 from by omega]
    simp [eval, calleeObject, eid, e2]
    cases f with
    | closure ps body => simp [Value.isClosureV] at hnc
    | builtin bf =>
        simp [Value.isFunctionV, mutHas]
        cases hc : mutableTags.contains bf with
        | true => simp
        | false => simp [applyBuiltin_ne_mut]
    | hostFn => simp [Value.isFunctionV, mutHas]
    | undefV => simp [Value.isFunctionV, mutHas, Value.isNullish, calleeOptional]
    | vnull => simp [Value.isFunctionV, mutHas, Value.isNullish, calleeOptional]
    | bool b => simp [Value.isFunctionV, mutHas, Value.isNullish, calleeOptional]
    | num nn => simp [Value.isFunctionV, mutHas, Value.isNullish, calleeOptional]
    | str s => simp [Value.isFunctionV, mutHas, Value.isNullish, calleeOptional]
    | arr xs => simp [Value.isFunctionV, mutHas, Value.isNullish, calleeOptional]
    | obj ps => simp [Value.isFunctionV, mutHas, Value.isNullish, calleeOptional]
    | mapV => simp [Value.isFunctionV, mutHas, Value.isNullish, calleeOptional]

/-- C1 witness: the member-callee biconditional applied to the concrete call
`[1, 2].push(3)` against an empty context. -/
theorem c1_call_mutable_method_identity_witness :
    (eval false 8 (.call (.memberS (.arrayLit [.lit (.numL 1), .lit (.numL 2)]) "push" false)
        [.lit (.numL 3)] false) (initSt ⟨[], []⟩)).1 = .error .mutableMethodErr ↔
      (mutHas (.arr [.num (.fin 1), .num (.fin 2)]) = true ∨
        mutHas (getPropS (.arr [.num (.fin 1), .num (.fin 2)]) "push") = true) := by
  have h1 : ∀ j, 4 ≤ j →
      eval false j (.arrayLit [.lit (.numL 1), .lit (.numL 2)]) (initSt ⟨[], []⟩) =
        (.ok (.arr [.num (.fin 1), .num (.fin 2)]), initSt ⟨[], []⟩) :=
    fun j hj => evalArrayLits [.numL 1, .numL 2] j _ (by simp; omega)
  have h2 : ∀ j, 4 ≤ j →
      evalArgs false j [.lit (.numL 3)] (initSt ⟨[], []⟩) =
        (.ok [.num (.fin 3)], initSt ⟨[], []⟩) :=
    fun j hj => evalArgsLits [.numL 3] j _ (by simp; omega)
  exact c1_call_mutable_method_identity.1 4 _ "push" _ _ _ _ h1 h2 rfl rfl 8 (by omega)

/-- C2: both the `new`-path `new Function()` and the call-path
`Function('x')` raise security errors instead of producing a function.  The
first conjunct shows the `new`-path error fires by callee NAME before any
argument is evaluated; the second shows the call-path guard fires whenever
the callee resolves to the host `Function` constructor (through ANY
identifier), also before argument evaluation; the final conjuncts evaluate
the spec's two expressions and show the two messages are distinguishable. -/
theorem c2_function_constructor_blocked :
    (∀ (args : List Node) (st : St) (n : Nat),
       eval true (n + 1) (.newE (.ident "Function") args) st =
         (.error .newFunctionNotAllowed, st)) ∧
    (∀ (x : String) (args : List Node) (st : St) (n : Nat),
       identLookup x st = .ok (.builtin .functionCtor) →
       eval true (n + 2) (.call (.ident x) args false) st =
         (.error .functionCtorNotAllowed, st)) ∧
    (eval true 9 (.newE (.ident "Function") []) (initSt ⟨[], []⟩)).1 =
      .error .newFunctionNotAllowed ∧
    (eval true 9 (.call (.ident "Function") [.lit (.strL "x")] false) (initSt ⟨[], []⟩)).1 =
      .error .functionCtorNotAllowed ∧
    errMessage .newFunctionNotAllowed ≠ errMessage .functionCtorNotAllowed := by
  refine ⟨?_, ?_, rfl, rfl, by decide⟩
  · intro args st n
    simp [eval]
  · intro x args st n h
    simp [eval, calleeObject, h, Value.isFunctionV]

/-- C2 witness: the call-path guard applied at the identifier `Function`
itself against an empty context. -/
theorem c2_function_constructor_blocked_witness :
    eval true 2 (.call (.ident "Function") [.lit (.strL "x")] false) (initSt ⟨[], []⟩) =
      (.error .functionCtorNotAllowed, initSt ⟨[], []⟩) :=
  c2_function_constructor_blocked.2.1 "Function" [.lit (.strL "x")] (initSt ⟨[], []⟩) 0 rfl

/-- C3 counterexample: the claim says division follows IEEE-754 at a zero
divisor (negative infinity for a negative dividend, NaN for `0 / 0`), but
the evaluator returns `1 / right` whenever `right === 0`: `(-1) / 0`
evaluates to POSITIVE infinity and `0 / 0` also evaluates to positive
infinity, and positive infinity is neither negative infinity nor NaN. -/
theorem c3_division_by_zero_counterexample :
    (eval false 5 (.binary .divB (.unary .negU (.lit (.numL 1))) (.lit (.numL 0)))
        (initSt ⟨[], []⟩)).1 = .ok (.num .posInf) ∧
    (eval false 5 (.binary .divB (.lit (.numL 0)) (.lit (.numL 0)))
        (initSt ⟨[], []⟩)).1 = .ok (.num .posInf) ∧
    JSNum.posInf ≠ JSNum.negInf ∧ JSNum.posInf ≠ JSNum.nan :=
  ⟨rfl, rfl, by decide, by decide⟩

/-- C3 amended: for a division whose divisor evaluates to `+0` or `-0`, the
evaluator never raises and returns `1 / divisor` — positive infinity when
the divisor is `+0` and negative infinity when it is `-0` — regardless of
the dividend's sign or value. -/
theorem c3_division_by_zero_amended :
    (∀ (n : Nat) (l r : Node) (st : St) (lv : Value) (st1 : St) (z : JSNum) (st2 : St),
       eval false n l st = (.ok lv, st1) →
       eval false n r st1 = (.ok (.num z), st2) →
       strictEqZero (.num z) = true →
       eval false (n + 1) (.binary .divB l r) st =
         (.ok (.num (JSNum.div (.fin 1) z)), st2)) ∧
    JSNum.div (.fin 1) (.fin 0) = .posInf ∧
    JSNum.div (.fin 1) .negZero = .negInf := by
  refine ⟨?_, rfl, rfl⟩
  intro n l r st lv st1 z st2 h1 h2 hz
  simp [eval, h1, h2, binOpEval, hz, Value.toNum]

/-- C3 witness: the amended statement applied to `(-5) / 0`, whose result is
`1 / 0`, i.e. positive infinity, with no error. -/
theorem c3_division_by_zero_amended_witness :
    eval false 4 (.binary .divB (.unary .negU (.lit (.numL 5))) (.lit (.numL 0)))
        (initSt ⟨[], []⟩) =
      (.ok (.num (JSNum.div (.fin 1) (.fin 0))), initSt ⟨[], []⟩) :=
  c3_division_by_zero_amended.1 3 (.unary .negU (.lit (.numL 5))) (.lit (.numL 0))
    (initSt ⟨[], []⟩) (.num (.fin (-5))) (initSt ⟨[], []⟩) (.fin 0) (initSt ⟨[], []⟩)
    rfl rfl rfl

/-- C4: logical `&&`/`||`/`??` short-circuit.  When the left operand's value
already decides the result, the whole expression evaluates to that value
with the state unchanged by the right operand, for EVERY right subtree (so
the right subtree is never evaluated — in particular one that would raise);
otherwise the expression's result is exactly the right subtree's
evaluation.  The final conjunct is the spec's instance: `false && foo.bar`
evaluates to `false` without error in an empty context. -/
theorem c4_logical_short_circuit :
    (∀ (n : Nat) (op : LogOp) (l : Node) (st : St) (v : Value) (st' : St),
       eval false n l st = (.ok v, st') →
       ((decidedBy op v = true →
           ∀ r : Node, eval false (n + 1) (.logical op l r) st = (.ok v, st')) ∧
        (decidedBy op v = false →
           ∀ r : Node, eval false (n + 1) (.logical op l r) st = eval false n r st'))) ∧
    eval false 9 (.logical .andL (.lit (.boolL false)) (.memberS (.ident "foo") "bar" false))
        (initSt ⟨[], []⟩) =
      (.ok (.bool false), initSt ⟨[], []⟩) := by
  constructor
  · intro n op l st v st' h
    cases op with
    | andL =>
        refine ⟨fun hd r => ?_, fun hd r => ?_⟩ <;>
          simp [decidedBy] at hd <;> simp [eval, h, hd]
    | orL =>
        refine ⟨fun hd r => ?_, fun hd r => ?_⟩ <;>
          simp [decidedBy] at hd <;> simp [eval, h, hd]
    | nullishL =>
        refine ⟨fun hd r => ?_, fun hd r => ?_⟩ <;>
          simp [decidedBy] at hd <;> simp [eval, h, hd]
  · rfl

/-- C4 witness: the short-circuit statement applied to `false && foo.bar`
(whose right subtree would raise a `ReferenceError` if visited). -/
theorem c4_logical_short_circuit_witness :
    eval false 6 (.logical .andL (.lit (.boolL false)) (.memberS (.ident "foo") "bar" false))
        (initSt ⟨[], []⟩) =
      (.ok (.bool false), initSt ⟨[], []⟩) :=
  (c4_logical_short_circuit.1 5 .andL (.lit (.boolL false)) (initSt ⟨[], []⟩) (.bool false)
      (initSt ⟨[], []⟩) rfl).1 rfl (.memberS (.ident "foo") "bar" false)

/-- C5: evaluating `(x => zzz)(1)` on a fresh evaluator raises the expected
`ReferenceError`, but the transient parameter frame `[x = 1]` is STILL on
the scope stack afterwards — `handleArrowFunctionExpression` has no
try/finally around the body visit, so the `shift()` is skipped on error and
the stack is not restored to its two original frames. -/
theorem c5_closure_frame_not_popped_on_error :
    eval false 9 (.call (.arrow ["x"] (.ident "zzz")) [.lit (.numL 1)] false)
        (initSt ⟨[], []⟩) =
      (.error (.refNotDefined "zzz"), ⟨[("x", .num (.fin 1))], []⟩ :: initSt ⟨[], []⟩) ∧
    (⟨[("x", .num (.fin 1))], []⟩ : Frame) :: initSt ⟨[], []⟩ ≠ initSt ⟨[], []⟩ :=
  ⟨rfl, fun h => by simpa using congrArg List.length h⟩

/-- C6: member access on a nullish object.  Generally: when the receiver
evaluates to `null` or `undefined`, an optional access yields `undefined`
and a non-optional access raises the property-read `TypeError` naming the
property and the receiver.  Concretely: `obj?.a?.b` with `obj: null`
evaluates to `undefined` without error, and `obj.a.b` with `obj: null`
raises the `TypeError` for reading `a` of `null`. -/
theorem c6_member_access_nullish :
    (∀ (n : Nat) (o : Node) (pname : String) (st : St) (vo : Value) (st' : St),
       eval false n o st = (.ok vo, st') → vo.isNullish = true →
       (eval false (n + 1) (.memberS o pname true) st = (.ok .undefV, st') ∧
        eval false (n + 1) (.memberS o pname false) st =
          (.error (.typeErrPropRead pname vo.isNullV), st'))) ∧
    eval false 9 (.chain (.memberS (.memberS (.ident "obj") "a" true) "b" true))
        (initSt ⟨[("obj", .vnull)], []⟩) =
      (.ok .undefV, initSt ⟨[("obj", .vnull)], []⟩) ∧
    (eval false 9 (.memberS (.memberS (.ident "obj") "a" false) "b" false)
        (initSt ⟨[("obj", .vnull)], []⟩)).1 =
      .error (.typeErrPropRead "a" true) := by
  refine ⟨?_, rfl, rfl⟩
  intro n o pname st vo st' h hnull
  constructor <;> simp [eval, h, hnull]

/-- C6 witness: the nullish-receiver statement applied to `obj?.a` and
`obj.a` with `obj` bound to `null`. -/
theorem c6_member_access_nullish_witness :
    eval false 2 (.memberS (.ident "obj") "a" true) (initSt ⟨[("obj", .vnull)], []⟩) =
      (.ok .undefV, initSt ⟨[("obj", .vnull)], []⟩) ∧
    eval false 2 (.memberS (.ident "obj") "a" false) (initSt ⟨[("obj", .vnull)], []⟩) =
      (.error (.typeErrPropRead "a" true), initSt ⟨[("obj", .vnull)], []⟩) :=
  c6_member_access_nullish.1 1 (.ident "obj") "a" (initSt ⟨[("obj", .vnull)], []⟩)
    .vnull (initSt ⟨[("obj", .vnull)], []⟩) rfl rfl

/-- C7: the template renderer substitutes the literal placeholder (the empty
string) for an expression whose evaluation raises an undefined-identifier
`ReferenceError` and keeps rendering; every other error is rethrown and
aborts the render at that point.  The first two conjuncts state the
per-expression policy; the next two show the replace loop continuing after
a substitution and aborting on a rethrown error; the last two render
concrete templates: one whose first expression is an undefined variable
(placeholder substituted, rest rendered) and one whose expression raises a
`TypeError` (the whole render fails with it). -/
theorem c7_renderer_undefined_placeholder :
    (∀ (p : String → Except Err Node) (ef : Nat) (c : List Char) (st : St)
       (nd : Node) (nm : String) (st' : St),
       p (String.mk (trimL c)) = .ok nd →
       eval false ef nd st = (.error (.refNotDefined nm), st') →
       applyExprPolicy p ef c st = (.ok [], st')) ∧
    (∀ (p : String → Except Err Node) (ef : Nat) (c : List Char) (st : St)
       (nd : Node) (e : Err) (st' : St),
       p (String.mk (trimL c)) = .ok nd →
       eval false ef nd st = (.error e, st') →
       isReferenceError e = false →
       applyExprPolicy p ef c st = (.error e, st')) ∧
    (∀ (p : String → Except Err Node) (ef fuel : Nat) (s : List Char) (st : St)
       (pre c rest repl : List Char) (st' : St),
       findSplit s = some (pre, c, rest) →
       applyExprPolicy p ef c st = (.ok repl, st') →
       renderLoop p ef (fuel + 1) s st =
         (match renderLoop p ef fuel rest st' with
          | (.ok out, st2) => (.ok (pre ++ repl ++ out), st2)
          | (.error e, st2) => (.error e, st2))) ∧
    (∀ (p : String → Except Err Node) (ef fuel : Nat) (s : List Char) (st : St)
       (pre c rest : List Char) (e : Err) (st' : St),
       findSplit s = some (pre, c, rest) →
       applyExprPolicy p ef c st = (.error e, st') →
       renderLoop p ef (fuel + 1) s st = (.error e, st')) ∧
    (evaluatorTemplate sampleParse 20 "a\x7b\x7b x \x7d\x7db\x7b\x7b y \x7d\x7dc"
        ⟨[("y", .num (.fin 1))], []⟩).1 = .ok "ab1c" ∧
    (evaluatorTemplate sampleParse 20 "a\x7b\x7b q.r \x7d\x7db" ⟨[("q", .vnull)], []⟩).1 =
      .error (.typeErrPropRead "r" true) := by
  refine ⟨?_, ?_, ?_, ?_, by rfl, by rfl⟩
  · intro p ef c st nd nm st' hp he
    simp [applyExprPolicy, hp, he, rendererCatches_ref]
  · intro p ef c st nd e st' hp he hr
    simp [applyExprPolicy, hp, he, rendererCatches_not_ref e hr]
  · intro p ef fuel s st pre c rest repl st' hf ha
    simp [renderLoop, hf, ha]
  · intro p ef fuel s st pre c rest e st' hf ha
    simp [renderLoop, hf, ha]

/-- C7 witness: the catch-and-substitute conjunct applied to the expression
content ` x ` (an undefined variable) in an empty context. -/
theorem c7_renderer_undefined_placeholder_witness :
    applyExprPolicy sampleParse 9 (" x ".toList) (initSt ⟨[], []⟩) =
      (.ok [], initSt ⟨[], []⟩) :=
  c7_renderer_undefined_placeholder.1 sampleParse 9 (" x ".toList) (initSt ⟨[], []⟩)
    (.ident "x") "x" (initSt ⟨[], []⟩) rfl rfl

/-- C8 counterexample: the claim says the unterminated portion is emitted
rather than dropped for EVERY unclosed expression, but a bare trailing
opening marker has an empty partial-content buffer, and the post-loop flush
fires only when the buffer is non-empty: `parse("a\x7b\x7b")` yields just the
text token `"a"` — the unterminated `\x7b\x7b` is dropped, not emitted as the
claim's predicted second text token. -/
theorem c8_unclosed_expression_counterexample :
    tpParse {} "a\x7b\x7b" = [.text "a" 0 1] ∧
    tpParse {} "a\x7b\x7b" ≠ [.text "a" 0 1, .text "\x7b\x7b" 1 3] := by
  have h1 : tpParse {} "a\x7b\x7b" = [.text "a" 0 1] := by rfl
  exact ⟨h1, by rw [h1]; decide⟩

/-- C8 amended: the tokenizer never raises on an unclosed expression; when
the scan ends outside the `TEXT` state, the post-loop flush emits the
unterminated portion as one literal text token consisting of the opening
delimiter followed by the partial content — but only when that partial
content is non-empty; with an empty buffer nothing is emitted (the bare
opening delimiter is dropped).  The first conjunct states this flush
behaviour for every delimiter configuration, template, end position,
non-`TEXT` state, buffer and accumulated tokens; the instances show
`parse("a\x7b\x7bb c")` = text `"a"`, text `"\x7b\x7bb c"`, and
`parse("a\x7b\x7b")` = text `"a"` alone. -/
theorem c8_unclosed_expression_literal_text :
    (∀ (es ee : List Char) (pws : Bool) (tmpl : List Char) (fuel pos : Nat)
       (state : PState) (buffer : List Char) (esp : Nat) (acc : List Token),
       tmpl.length ≤ pos → state ≠ .textS →
       tpLoop es ee pws tmpl (fuel + 1) pos state buffer esp acc =
         (if buffer.length > 0
          then acc ++ [.text (String.mk (es ++ buffer)) esp pos]
          else acc)) ∧
    tpParse {} "a\x7b\x7bb c" = [.text "a" 0 1, .text "\x7b\x7bb c" 1 6] ∧
    tpParse {} "a\x7b\x7b" = [.text "a" 0 1] := by
  refine ⟨?_, by rfl, by rfl⟩
  intro es ee pws tmpl fuel pos state buffer esp acc hpos hstate
  rw [tpLoop, if_neg (by omega)]
  simp [hstate]

/-- C8 witness: the flush conjunct applied at the end configuration the scan
of `"a\x7b\x7bb c"` reaches (`EXPR` state, buffer `"b c"`), emitting the text
token `"\x7b\x7bb c"`. -/
theorem c8_unclosed_expression_literal_text_witness :
    tpLoop ("\x7b\x7b".toList) ("\x7d\x7d".toList) false ("a\x7b\x7bb c".toList) 1 6 .exprS
        ("b c".toList) 1 [.text "a" 0 1] =
      [Token.text "a" 0 1, .text "\x7b\x7bb c" 1 6] := by
  have h := c8_unclosed_expression_literal_text.1 ("\x7b\x7b".toList) ("\x7d\x7d".toList)
    false ("a\x7b\x7bb c".toList) 0 6 .exprS ("b c".toList) 1 [.text "a" 0 1]
    (by decide) (by decide)
  exact h.trans (by rfl)

/-- C9: for EVERY template, in each of the three string-literal states
(single-quoted, double-quoted, backtick) the scanner consumes any run of
characters other than that state's closing quote and backslash — the
expression-end marker included — into the buffer, emitting no token and
never treating the marker as the expression terminator (first conjunct,
quantified over the template decomposed around the run, the state, the
buffer and the accumulated tokens).  Concretely,
`parse("Value: \x7b\x7b \"brace: \x7d\x7d\" \x7d\x7d end.")` yields exactly one
expression token, whose value is the quoted string including the inner
`\x7d\x7d`, followed by the text token `" end."`. -/
theorem c9_end_marker_inside_string :
    (∀ (es ee : List Char) (pws : Bool) (inner pre post : List Char) (fuel : Nat)
       (s : PState) (q : Char) (buffer : List Char) (esp : Nat) (acc : List Token),
       stringQuote s = some q →
       (∀ c ∈ inner, c ≠ q ∧ c ≠ '\\') →
       inner.length ≤ fuel →
       tpLoop es ee pws (pre ++ inner ++ post) (fuel + 1) pre.length s buffer esp acc =
         tpLoop es ee pws (pre ++ inner ++ post) (fuel + 1 - inner.length)
           (pre.length + inner.length) s (buffer ++ inner) esp acc) ∧
    tpParse {} "Value: \x7b\x7b \"brace: \x7d\x7d\" \x7d\x7d end." =
      [.text "Value: " 0 7, .exprTok "\"brace: \x7d\x7d\"" 7 24 9 22, .text " end." 24 29] :=
  ⟨fun es ee pws => tpLoop_string_run es ee pws, by rfl⟩

/-- C9 witness: the string-run conjunct applied inside the double-quoted
string of the template `"\x7b\x7b\"\x7d\x7d\"\x7d\x7d"`: the two characters of
the end marker `\x7d\x7d` are consumed into the buffer with the scanner still
in the double-quote state. -/
theorem c9_end_marker_inside_string_witness :
    tpLoop ("\x7b\x7b".toList) ("\x7d\x7d".toList) false
        ("\x7b\x7b\"".toList ++ "\x7d\x7d".toList ++ "\"\x7d\x7d".toList) 3
        ("\x7b\x7b\"".toList).length .stringDQ ("\"".toList) 0 [] =
      tpLoop ("\x7b\x7b".toList) ("\x7d\x7d".toList) false
        ("\x7b\x7b\"".toList ++ "\x7d\x7d".toList ++ "\"\x7d\x7d".toList) 1
        (("\x7b\x7b\"".toList).length + ("\x7d\x7d".toList).length) .stringDQ
        ("\"".toList ++ "\x7d\x7d".toList) 0 [] :=
  c9_end_marker_inside_string.1 ("\x7b\x7b".toList) ("\x7d\x7d".toList) false
    ("\x7d\x7d".toList) ("\x7b\x7b\"".toList) ("\"\x7d\x7d".toList) 2 .stringDQ '"'
    ("\"".toList) 0 [] rfl (by decide) (by decide)

/-- C10: identifier resolution consults only each frame's OWN properties.
A name bound as an own property with value `undefined` resolves to
`undefined` without raising, whatever sits on the frame's prototype; a name
reachable only through the context frame's prototype chain (and absent from
the global scope's own entries) raises the `ReferenceError` saying the name
is not defined, even though ordinary JavaScript property lookup would find
it. -/
theorem c10_identifier_own_property_only :
    (∀ (n : Nat) (name : String) (protoL : List (String × Value)) (rest : St),
       eval false (n + 1) (.ident name) (⟨[(name, .undefV)], protoL⟩ :: rest) =
         (.ok .undefV, ⟨[(name, .undefV)], protoL⟩ :: rest)) ∧
    (∀ (n : Nat) (name : String) (w : Value),
       (globalOwn.lookup name).isNone →
       eval false (n + 1) (.ident name) (initSt ⟨[], [(name, w)]⟩) =
         (.error (.refNotDefined name), initSt ⟨[], [(name, w)]⟩)) := by
  constructor
  · intro n name protoL rest
    simp [eval, identLookup, List.lookup]
  · intro n name w h
    rw [Option.isNone_iff_eq_none] at h
    simp [eval, identLookup, initSt, globalScope, h]

/-- C10 witness: a context whose prototype chain binds `zzz` (but whose own
properties do not) still raises `zzz is not defined`. -/
theorem c10_identifier_own_property_only_witness :
    eval false 1 (.ident "zzz") (initSt ⟨[], [("zzz", .num (.fin 1))]⟩) =
      (.error (.refNotDefined "zzz"), initSt ⟨[], [("zzz", .num (.fin 1))]⟩) :=
  c10_identifier_own_property_only.2 0 "zzz" (.num (.fin 1)) rfl

end EvalJs
